import Mathlib

/-!
Verification of the temp-mail backend's ingestion / normalization / room-routing core.

The definitions below are a shallow embedding of `src/server.js` (Socket.IO room
logic, the `/webhook-mailgun` and `/api/sendgrid/webhook` routes, the
`/api/emails/:emailAddress` route) and of the Mongoose email model
(`toClientFormat`, `findByAddress`, the schema's `lowercase`/`trim` setters).

JavaScript strings are modeled as Lean `String`; timestamps and ids as `Nat`;
fallible external calls (MongoDB save / query, MIME parsing) as explicit
success flags or `Option`-returning function parameters.
-/

/-- Whitespace recognized by JavaScript's `String.prototype.trim`
(restricted to the ASCII whitespace characters). -/
def isJsWs (c : Char) : Bool :=
  c == ' ' || c == '\t' || c == '\n' || c == '\r' || c == '\x0b' || c == '\x0c'

/-- Drop leading and trailing whitespace from a character list. -/
def trimChars (l : List Char) : List Char :=
  ((l.dropWhile isJsWs).reverse.dropWhile isJsWs).reverse

/-- Model of JavaScript `s.trim()`. -/
def jsTrim (s : String) : String := String.mk (trimChars s.data)

/-- Model of JavaScript `s.toLowerCase()` (ASCII case folding). -/
def jsLower (s : String) : String := String.mk (s.data.map Char.toLower)

/-- The normalization the server applies at ingestion and join/leave:
`emailAddress.toLowerCase().trim()`. -/
def canon (s : String) : String := jsTrim (jsLower s)

/-- JavaScript truthiness of a possibly-absent string field:
`undefined`/missing and the empty string are falsy. -/
def jsTruthy (a : Option String) : Bool :=
  match a with
  | some s => s != ""
  | none => false

/-- Model of JavaScript `a || b` on possibly-absent string fields. -/
def jsOr (a b : Option String) : Option String :=
  match a with
  | some s => if s = "" then b else some s
  | none => b

/-- Model of JavaScript `a || d` where `d` is a string default. -/
def jsOrD (a : Option String) (d : String) : String :=
  match a with
  | some s => if s = "" then d else s
  | none => d

/-- Does `needle` occur at the head of `hay`? (helper for substring search). -/
def leadsWith : List Char → List Char → Bool
  | [], _ => true
  | _ :: _, [] => false
  | a :: as, b :: bs => a == b && leadsWith as bs

/-- Does `needle` occur anywhere in `hay`? (helper for substring search). -/
def hasSeg (needle : List Char) : List Char → Bool
  | [] => needle.isEmpty
  | c :: rest => leadsWith needle (c :: rest) || hasSeg needle rest

/-- Model of JavaScript `hay.includes(needle)`. -/
def strIncludes (hay needle : String) : Bool := hasSeg needle.data hay.data

/-- Lazy scan for the group of `/<(.+?)>/`: consume at least one character
(`.` does not match a newline) and stop at the first subsequent `>`. -/
def scanGroup (acc : List Char) : List Char → Option (List Char)
  | [] => none
  | c :: rest =>
    if c = '>' && !acc.isEmpty then some acc.reverse
    else if c = '\n' then none
    else scanGroup (c :: acc) rest

/-- Model of JavaScript `to.match(/<(.+?)>/)`: the first capture group of the
leftmost match, if any. -/
def jsAngleMatch : List Char → Option String
  | [] => none
  | '<' :: rest =>
    match scanGroup [] rest with
    | some g => some (String.mk g)
    | none => jsAngleMatch rest
  | _ :: rest => jsAngleMatch rest

/-! ## Room registry

`activeRooms` in `server.js` is a `Map<string, Set<string>>` from normalized
email address to the set of subscribed socket ids; Socket.IO's own room table
has the same membership semantics. Both are modeled as association lists that
preserve insertion order, mirroring JavaScript `Map`/`Set` iteration order. -/

/-- Association list from room name (normalized address) to member socket ids. -/
abbrev Registry := List (String × List String)

/-- Members of a room (`activeRooms.get(room)`, empty if absent). -/
def membersOf : Registry → String → List String
  | [], _ => []
  | p :: rest, room => if p.1 == room then p.2 else membersOf rest room

/-- Model of `Set.add`: append if not already present. -/
def addMember (s : List String) (x : String) : List String :=
  if x ∈ s then s else s ++ [x]

/-- Model of `Set.delete`. -/
def removeMember (s : List String) (x : String) : List String :=
  s.filter (fun y => y != x)

/-- `join-room` bookkeeping:
`if (!activeRooms.has(n)) activeRooms.set(n, new Set()); activeRooms.get(n).add(id)`. -/
def regJoin (reg : Registry) (room sid : String) : Registry :=
  if reg.any (fun p => p.1 == room) then
    reg.map (fun p => if p.1 == room then (p.1, addMember p.2 sid) else p)
  else
    reg ++ [(room, [sid])]

/-- `leave-room` bookkeeping: delete the id from the room's set and prune the
room when its set becomes empty; no-op when the room is absent. -/
def regLeave (reg : Registry) (room sid : String) : Registry :=
  if reg.any (fun p => p.1 == room) then
    (reg.map (fun p => if p.1 == room then (p.1, removeMember p.2 sid) else p)).filter
      (fun p => !(p.1 == room && p.2.isEmpty))
  else reg

/-- `disconnect` bookkeeping: delete the id from every room's set and prune
every room left empty. -/
def regDisconnect (reg : Registry) (sid : String) : Registry :=
  (reg.map (fun p => (p.1, removeMember p.2 sid))).filter (fun p => !p.2.isEmpty)

/-! ## Email model (`models/Email.js`) -/

/-- Mailgun-specific metadata kept on the document (opaque: no behavior reads
it). The `parseInt(timestamp) || Date.now()` numeric conversion is kept as the
raw field value, since nothing downstream depends on it. -/
structure MailgunMeta where
  messageId : Option String
  timestampF : Option String
  token : Option String
  signature : Option String
deriving DecidableEq, Repr

/-- A stored email document. `id` models the Mongo `_id`; timestamps are `Nat`
milliseconds. -/
structure EmailDoc where
  to_address : String
  from_address : String
  subject : String
  body_text : String
  body_html : String
  received_at : Nat
  createdAt : Nat
  metadata : Option MailgunMeta
  id : Nat
deriving DecidableEq, Repr

/-- The schema setters applied on save: `to_address` has `lowercase: true,
trim: true`; `from_address` and `subject` have `trim: true`. -/
def applySchema (d : EmailDoc) : EmailDoc :=
  { d with to_address := canon d.to_address,
           from_address := jsTrim d.from_address,
           subject := jsTrim d.subject }

/-- The client-facing record produced by `emailSchema.methods.toClientFormat`.
`from` is a Lean keyword, so that field is named `fromA`. -/
structure ClientEmail where
  id : Nat
  toA : String
  fromA : String
  subject : String
  bodyText : String
  bodyHtml : String
  receivedAt : Nat
  expiresAt : Nat
deriving DecidableEq, Repr

/-- `toClientFormat`: stable client shape; `expiresAt = createdAt + 900000` ms. -/
def toClientFormat (d : EmailDoc) : ClientEmail :=
  { id := d.id, toA := d.to_address, fromA := d.from_address, subject := d.subject,
    bodyText := d.body_text, bodyHtml := d.body_html, receivedAt := d.received_at,
    expiresAt := d.createdAt + 900000 }

/-- Ordering used by `findByAddress`'s `.sort({ createdAt: -1 })`:
`a` is at least as recent as `b`. -/
def newerEq (a b : EmailDoc) : Prop := b.createdAt ≤ a.createdAt

instance : DecidableRel newerEq := fun a b => Nat.decLe b.createdAt a.createdAt

instance : IsTotal EmailDoc newerEq :=
  ⟨fun a b => Or.symm (Nat.le_total a.createdAt b.createdAt)⟩

instance : IsTrans EmailDoc newerEq :=
  ⟨fun _ _ _ h1 h2 => Nat.le_trans h2 h1⟩

/-- `emailSchema.statics.findByAddress`:
`find({ to_address: address.toLowerCase() }).sort({ createdAt: -1 }).limit(50)`.
Note the query key is only lowercased, not trimmed. -/
def findByAddress (store : List EmailDoc) (address : String) : List EmailDoc :=
  ((store.filter (fun m => m.to_address == jsLower address)).insertionSort newerEq).take 50

/-! ## Server state and handlers (`server.js`) -/

/-- Global mutable state of the server process: Socket.IO's room table
(`rooms`), the `activeRooms` tracking map, the Mongo collection (`store`), and
a counter modeling fresh `_id` assignment. -/
structure ServerState where
  rooms : Registry
  activeRooms : Registry
  store : List EmailDoc
  nextId : Nat
deriving DecidableEq, Repr

/-- A server-to-client push over Socket.IO. `newEmail` records the resolved
target socket ids of `io.to(room).emit('new-email', …)` at emission time. -/
inductive Push where
  | history (sid : String) (msgs : List ClientEmail)
  | newEmail (targets : List String) (msg : ClientEmail)
  | errorPush (sid : String) (message : String)
deriving DecidableEq, Repr

/-- The result of one HTTP webhook request: next state, HTTP status, pushes. -/
structure HandlerResult where
  state : ServerState
  status : Nat
  pushes : List Push
deriving DecidableEq, Repr

/-- The fresh server state (no connections, empty store). -/
def emptyState : ServerState := ⟨[], [], [], 0⟩

/-- The `join-room` handler. `socket.join` and the `activeRooms` bookkeeping
run before the awaited history query; `qOk` models whether
`Email.findByAddress` succeeds. On failure the catch block emits
`error` to the joining socket only; membership is not rolled back. -/
def joinRoom (st : ServerState) (sid : String) (emailAddress : String) (qOk : Bool) :
    ServerState × List Push :=
  let normalizedEmail := canon emailAddress
  let st' := { st with rooms := regJoin st.rooms normalizedEmail sid,
                       activeRooms := regJoin st.activeRooms normalizedEmail sid }
  if qOk then
    (st', [Push.history sid ((findByAddress st'.store normalizedEmail).map toClientFormat)])
  else
    (st', [Push.errorPush sid "Failed to join room"])

/-- The `leave-room` handler: `socket.leave` plus `activeRooms` pruning. -/
def leaveRoom (st : ServerState) (sid : String) (emailAddress : String) : ServerState :=
  let normalizedEmail := canon emailAddress
  { st with rooms := regLeave st.rooms normalizedEmail sid,
            activeRooms := regLeave st.activeRooms normalizedEmail sid }

/-- The `disconnect` handler: Socket.IO removes the socket from its rooms and
the handler sweeps it out of every `activeRooms` entry, pruning empty rooms. -/
def disconnectSock (st : ServerState) (sid : String) : ServerState :=
  { st with rooms := regDisconnect st.rooms sid,
            activeRooms := regDisconnect st.activeRooms sid }

/-- The parsed body of a Mailgun webhook request (form fields; absent fields
are `none`). `timestampF` models the `timestamp` field. -/
structure MailgunPayload where
  recipient : Option String
  sender : Option String
  subject : Option String
  bodyPlain : Option String
  bodyHtml : Option String
  messageId : Option String
  timestampF : Option String
  token : Option String
  signature : Option String
deriving DecidableEq, Repr

/-- The document the Mailgun handler constructs and saves (`new Email({...})`
followed by the schema setters), for a non-falsy recipient `r`. -/
def mailgunDoc (st : ServerState) (p : MailgunPayload) (r : String) (now : Nat) : EmailDoc :=
  applySchema
    { to_address := canon r,
      from_address := jsOrD p.sender "unknown@sender.com",
      subject := jsOrD p.subject "(No Subject)",
      body_text := jsOrD p.bodyPlain "",
      body_html := jsOrD p.bodyHtml "",
      received_at := now,
      createdAt := now,
      metadata := some ⟨p.messageId, p.timestampF, p.token, p.signature⟩,
      id := st.nextId }

/-- The `POST /webhook-mailgun` handler. `saveOk` models whether
`newEmail.save()` succeeds; on failure the catch block answers 500 and no
push is emitted. There is no domain policy on this route. -/
def webhookMailgun (st : ServerState) (p : MailgunPayload) (now : Nat) (saveOk : Bool) :
    HandlerResult :=
  match p.recipient with
  | none => ⟨st, 400, []⟩
  | some r =>
    if r = "" then ⟨st, 400, []⟩
    else
      let newEmail := mailgunDoc st p r now
      if saveOk then
        ⟨{ st with store := st.store ++ [newEmail], nextId := st.nextId + 1 },
         200,
         [Push.newEmail (membersOf st.rooms (canon r)) (toClientFormat newEmail)]⟩
      else ⟨st, 500, []⟩

/-- Fields recovered by `mailparser.simpleParser` from a raw MIME blob. -/
structure ParsedMime where
  toText : Option String
  fromText : Option String
  subject : Option String
  text : Option String
  html : Option String
deriving DecidableEq, Repr

/-- The parsed body of a SendGrid webhook request. `fromF` models the `from`
field (`from` is a Lean keyword); `bodyPlain`/`bodyHtml` model the
`body-plain`/`body-html` aliases. -/
structure SendgridPayload where
  email : Option String
  toF : Option String
  fromF : Option String
  subject : Option String
  text : Option String
  bodyPlain : Option String
  plain : Option String
  html : Option String
  bodyHtml : Option String
deriving DecidableEq, Repr

/-- The `to`/`from`/`subject`/body values after the SendGrid handler's field
extraction stage. -/
structure SendgridFields where
  toF : Option String
  fromF : Option String
  subject : Option String
  bodyText : String
  bodyHtml : String
deriving DecidableEq, Repr

/-- Field extraction of the SendGrid handler: if the `email` field is truthy,
parse it as raw MIME (`parse` models `simpleParser`; `none` models a parse
failure, which falls back to the direct fields with empty bodies); otherwise
read the direct fields, with the body aliases tried in order. -/
def sendgridFields (p : SendgridPayload) (parse : String → Option ParsedMime) :
    SendgridFields :=
  if jsTruthy p.email then
    match parse ((p.email).getD "") with
    | some parsed =>
      { toF := jsOr parsed.toText p.toF,
        fromF := jsOr parsed.fromText p.fromF,
        subject := jsOr parsed.subject p.subject,
        bodyText := (parsed.text).getD "",
        bodyHtml := (parsed.html).getD "" }
    | none =>
      { toF := p.toF, fromF := p.fromF, subject := p.subject, bodyText := "", bodyHtml := "" }
  else
    { toF := p.toF, fromF := p.fromF, subject := p.subject,
      bodyText := jsOrD (jsOr (jsOr p.text p.bodyPlain) p.plain) "",
      bodyHtml := jsOrD (jsOr p.html p.bodyHtml) "" }

/-- Recipient extraction of the SendGrid handler: if the `to` value is truthy,
take the angle-bracketed portion when `/<(.+?)>/` matches, else the trimmed
raw value; otherwise the empty string. -/
def sendgridRecipient (p : SendgridPayload) (parse : String → Option ParsedMime) : String :=
  let toV := (sendgridFields p parse).toF
  if jsTruthy toV then
    match jsAngleMatch (toV.getD "").data with
    | some g => g
    | none => jsTrim (toV.getD "")
  else ""

/-- The hardcoded accepted root domain of the SendGrid route. -/
def rootDomain : String := "fadhlirajwaa.my.id"

/-- The document the SendGrid handler passes to `Email.create` (with the
schema setters applied on save). -/
def sendgridDoc (st : ServerState) (p : SendgridPayload)
    (parse : String → Option ParsedMime) (now : Nat) : EmailDoc :=
  applySchema
    { to_address := sendgridRecipient p parse,
      from_address := jsOrD (sendgridFields p parse).fromF "Unknown Sender",
      subject := jsOrD (sendgridFields p parse).subject "(No Subject)",
      body_text := (sendgridFields p parse).bodyText,
      body_html := (sendgridFields p parse).bodyHtml,
      received_at := now,
      createdAt := now,
      metadata := none,
      id := st.nextId }

/-- The `POST /api/sendgrid/webhook` handler. An empty recipient or one whose
string does not contain `rootDomain` is silently discarded with `200 OK`;
`saveOk` models whether `Email.create` succeeds — the catch block also
answers `200 OK` so SendGrid does not retry. -/
def webhookSendgrid (st : ServerState) (p : SendgridPayload)
    (parse : String → Option ParsedMime) (now : Nat) (saveOk : Bool) : HandlerResult :=
  if sendgridRecipient p parse = "" ∨ strIncludes (sendgridRecipient p parse) rootDomain = false then
    ⟨st, 200, []⟩
  else if saveOk then
    ⟨{ st with store := st.store ++ [sendgridDoc st p parse now], nextId := st.nextId + 1 },
     200,
     [Push.newEmail (membersOf st.rooms (canon (sendgridRecipient p parse)))
        (toClientFormat (sendgridDoc st p parse now))]⟩
  else ⟨st, 200, []⟩

/-- The `GET /api/emails/:emailAddress` handler: history lookup passes the raw
route parameter straight to `Email.findByAddress`. `qOk` models query success. -/
def getEmails (st : ServerState) (emailAddress : String) (qOk : Bool) :
    Nat × List ClientEmail :=
  if qOk then (200, (findByAddress st.store emailAddress).map toClientFormat)
  else (500, [])

/-! ## Specification predicates and concrete instances -/

/-- The registry invariant: every tracked address has at least one member. -/
def RegWF (reg : Registry) : Prop := ∀ p ∈ reg, p.2 ≠ []

/-- Two raw strings differ only in letter case and in leading/trailing
whitespace: each is a whitespace sandwich around a core, the cores agree after
case folding, and the common folded core starts and ends with non-whitespace. -/
def CaseWsVariant (r1 r2 : String) : Prop :=
  ∃ w1 w2 w3 w4 x1 x2 : List Char,
    (∀ c ∈ w1, isJsWs c = true) ∧ (∀ c ∈ w2, isJsWs c = true) ∧
    (∀ c ∈ w3, isJsWs c = true) ∧ (∀ c ∈ w4, isJsWs c = true) ∧
    r1.data = w1 ++ x1 ++ w2 ∧ r2.data = w3 ++ x2 ++ w4 ∧
    x1.map Char.toLower = x2.map Char.toLower ∧
    (∀ c, (x1.map Char.toLower).head? = some c → isJsWs c = false) ∧
    (∀ c, (x1.map Char.toLower).reverse.head? = some c → isJsWs c = false)

/-- A MIME parser that always fails (`simpleParser` rejecting its input). -/
def noMime : String → Option ParsedMime := fun _ => none

/-- A Mailgun payload whose recipient's domain is not the accepted root
domain (nor a subdomain of it). -/
def c1MailgunPayload : MailgunPayload :=
  { recipient := some "alice@evil.com", sender := some "bob@example.org",
    subject := some "hello", bodyPlain := some "body", bodyHtml := none,
    messageId := none, timestampF := none, token := none, signature := none }

/-- Run of the Mailgun webhook on a recipient outside the accepted root
domain, with one subscriber joined to that address. -/
def c1Run : HandlerResult :=
  webhookMailgun (joinRoom emptyState "sock1" "alice@evil.com" true).1
    c1MailgunPayload 0 true

/-- A SendGrid payload whose recipient is outside the accepted root domain. -/
def c1SgPayload : SendgridPayload :=
  { email := none, toF := some "bob@example.org", fromF := none, subject := none,
    text := none, bodyPlain := none, plain := none, html := none, bodyHtml := none }

/-- A Mailgun payload with a recipient differing in case from its canonical
form. -/
def c2Payload : MailgunPayload :=
  { recipient := some "USER@Fadhlirajwaa.my.id", sender := none, subject := none,
    bodyPlain := none, bodyHtml := none, messageId := none, timestampF := none,
    token := none, signature := none }

/-- A stored document whose recipient is already canonical. -/
def c3Doc : EmailDoc :=
  { to_address := "a@d.com", from_address := "x", subject := "s", body_text := "",
    body_html := "", received_at := 0, createdAt := 0, metadata := none, id := 1 }

/-- A Mailgun payload with recipient `a@d.com`. -/
def c3Payload : MailgunPayload :=
  { recipient := some "a@d.com", sender := none, subject := none,
    bodyPlain := none, bodyHtml := none, messageId := none, timestampF := none,
    token := none, signature := none }

/-- A server state with one active room holding one member. -/
def c4State : ServerState := ⟨[("a@b.c", ["s1"])], [("a@b.c", ["s1"])], [], 0⟩

/-- A Mailgun payload with no recipient field at all. -/
def c5MgPayload : MailgunPayload :=
  { recipient := none, sender := some "x@y.z", subject := some "s",
    bodyPlain := none, bodyHtml := none, messageId := none, timestampF := none,
    token := none, signature := none }

/-- A SendGrid payload with no recipient field at all. -/
def c5SgPayload : SendgridPayload :=
  { email := none, toF := none, fromF := none, subject := none, text := none,
    bodyPlain := none, plain := none, html := none, bodyHtml := none }

/-- An older stored message for `a@d.com`. -/
def c6Doc1 : EmailDoc :=
  { to_address := "a@d.com", from_address := "p@q.r", subject := "first",
    body_text := "m1", body_html := "", received_at := 10, createdAt := 10,
    metadata := none, id := 1 }

/-- A newer stored message for `a@d.com`. -/
def c6Doc2 : EmailDoc :=
  { to_address := "a@d.com", from_address := "p@q.r", subject := "second",
    body_text := "m2", body_html := "", received_at := 20, createdAt := 20,
    metadata := none, id := 2 }

/-- A server state holding the two stored messages for `a@d.com`. -/
def c6State : ServerState := ⟨[], [], [c6Doc1, c6Doc2], 3⟩

/-- A Mailgun payload that ingests a third message for `a@d.com`. -/
def c6Payload : MailgunPayload :=
  { recipient := some "a@d.com", sender := some "p@q.r", subject := some "third",
    bodyPlain := some "m3", bodyHtml := none, messageId := none, timestampF := none,
    token := none, signature := none }

/-- A stored document with a canonical (trimmed) recipient. -/
def c7Doc : EmailDoc :=
  { to_address := "x@y.z", from_address := "a", subject := "s", body_text := "",
    body_html := "", received_at := 0, createdAt := 3, metadata := none, id := 7 }

/-- A Mailgun payload with recipient `a@d.com`, ingested after a failed join. -/
def c9Payload : MailgunPayload :=
  { recipient := some "a@d.com", sender := some "w@x.y", subject := some "live",
    bodyPlain := some "b", bodyHtml := none, messageId := none, timestampF := none,
    token := none, signature := none }

/-- A Mailgun payload whose save is observed both failing and succeeding. -/
def c10Payload : MailgunPayload :=
  { recipient := some "user@site.tld", sender := some "s@t.u", subject := some "x",
    bodyPlain := some "b", bodyHtml := some "<p>b</p>", messageId := some "mid",
    timestampF := some "123", token := some "tok", signature := some "sig" }


/-! ## Registry lemmas -/

/-- A `Set` with an element just added is nonempty. -/
theorem addMember_ne_nil (s : List String) (x : String) : addMember s x ≠ [] := by
  unfold addMember
  split
  · exact List.ne_nil_of_mem (by assumption)
  · simp

/-- The added element is a member. -/
theorem mem_addMember (s : List String) (x : String) : x ∈ addMember s x := by
  unfold addMember
  split
  · assumption
  · simp

/-- `membersOf` skips a block with no matching key. -/
theorem membersOf_append_of_not_found (reg l : Registry) (room : String)
    (h : reg.any (fun p => p.1 == room) = false) :
    membersOf (reg ++ l) room = membersOf l room := by
  induction reg with
  | nil => rfl
  | cons p rest ih =>
    rw [List.any_cons, Bool.or_eq_false_iff] at h
    rw [List.cons_append, membersOf, if_neg (by simp [h.1])]
    exact ih h.2

/-- After updating the entry of `room`, the added socket id is a member. -/
theorem mem_membersOf_update (reg : Registry) (room sid : String)
    (h : reg.any (fun p => p.1 == room) = true) :
    sid ∈ membersOf
      (reg.map (fun p => if p.1 == room then (p.1, addMember p.2 sid) else p)) room := by
  induction reg with
  | nil => simp at h
  | cons p rest ih =>
    by_cases hp : (p.1 == room) = true
    · rw [List.map_cons, if_pos hp, membersOf, if_pos hp]
      exact mem_addMember p.2 sid
    · rw [List.any_cons, Bool.or_eq_true] at h
      rw [List.map_cons, if_neg hp, membersOf, if_neg hp]
      exact ih (h.resolve_left hp)

/-- Joining puts the socket id into the joined room's member set. -/
theorem mem_membersOf_regJoin (reg : Registry) (room sid : String) :
    sid ∈ membersOf (regJoin reg room sid) room := by
  unfold regJoin
  split
  case isTrue h => exact mem_membersOf_update reg room sid h
  case isFalse h =>
    rw [membersOf_append_of_not_found reg _ room (Bool.eq_false_iff.mpr h)]
    simp [membersOf]

/-- `join` preserves the invariant. -/
theorem regWF_regJoin (reg : Registry) (room sid : String) (h : RegWF reg) :
    RegWF (regJoin reg room sid) := by
  unfold regJoin
  split
  · intro q hq
    obtain ⟨p, hp, rfl⟩ := List.mem_map.mp hq
    by_cases hpr : (p.1 == room) = true
    · rw [if_pos hpr]
      exact addMember_ne_nil p.2 sid
    · rw [if_neg hpr]
      exact h p hp
  · intro q hq
    rcases List.mem_append.mp hq with h1 | h2
    · exact h q h1
    · have : q = (room, [sid]) := by simpa using h2
      subst this
      simp

/-- `leave` preserves the invariant: a room emptied by the removal is pruned. -/
theorem regWF_regLeave (reg : Registry) (room sid : String) (h : RegWF reg) :
    RegWF (regLeave reg room sid) := by
  unfold regLeave
  split
  · intro q hq
    obtain ⟨hmem, hpred⟩ := List.mem_filter.mp hq
    obtain ⟨p, hp, rfl⟩ := List.mem_map.mp hmem
    by_cases hpr : (p.1 == room) = true
    · rw [if_pos hpr] at hpred ⊢
      intro hnil
      rw [Bool.not_eq_true', Bool.and_eq_false_iff] at hpred
      rcases hpred with h1 | h2
      · exact absurd hpr (by simpa using h1)
      · rw [hnil] at h2
        simp at h2
    · rw [if_neg hpr]
      exact h p hp
  · exact h

/-- `disconnect` preserves the invariant: every emptied room is pruned. -/
theorem regWF_regDisconnect (reg : Registry) (sid : String) :
    RegWF (regDisconnect reg sid) := by
  intro q hq
  obtain ⟨_, hpred⟩ := List.mem_filter.mp hq
  rw [Bool.not_eq_true'] at hpred
  intro hnil
  rw [hnil] at hpred
  simp at hpred

/-! ## Normalization lemmas -/

/-- Dropping leading whitespace skips an all-whitespace block. -/
theorem dropWhile_append_ws (w t : List Char) (hw : ∀ c ∈ w, isJsWs c = true) :
    (w ++ t).dropWhile isJsWs = t.dropWhile isJsWs := by
  induction w with
  | nil => rfl
  | cons c w ih =>
    rw [List.cons_append, List.dropWhile_cons, if_pos (hw c (by simp))]
    exact ih (fun d hd => hw d (by simp [hd]))

/-- An all-whitespace list is dropped entirely. -/
theorem dropWhile_all_ws (w : List Char) (hw : ∀ c ∈ w, isJsWs c = true) :
    w.dropWhile isJsWs = [] := by
  have h := dropWhile_append_ws w [] hw
  simpa using h

/-- A list whose head is not whitespace is left unchanged. -/
theorem dropWhile_head_not_ws (t : List Char)
    (ht : ∀ c, t.head? = some c → isJsWs c = false) :
    t.dropWhile isJsWs = t := by
  cases t with
  | nil => rfl
  | cons c rest =>
    rw [List.dropWhile_cons, if_neg (by simp [ht c rfl])]

/-- Trimming an arbitrary-whitespace sandwich around a whitespace-free-ended
core returns exactly the core. -/
theorem trimChars_sandwich (w1 w2 y : List Char)
    (h1 : ∀ c ∈ w1, isJsWs c = true) (h2 : ∀ c ∈ w2, isJsWs c = true)
    (hy1 : ∀ c, y.head? = some c → isJsWs c = false)
    (hy2 : ∀ c, y.reverse.head? = some c → isJsWs c = false) :
    trimChars (w1 ++ y ++ w2) = y := by
  unfold trimChars
  rw [List.append_assoc, dropWhile_append_ws w1 (y ++ w2) h1]
  cases y with
  | nil =>
    rw [List.nil_append, dropWhile_all_ws w2 h2]
    rfl
  | cons a y' =>
    rw [dropWhile_head_not_ws ((a :: y') ++ w2) (by intro c hc; exact hy1 c (by simpa using hc)),
        List.reverse_append,
        dropWhile_append_ws w2.reverse (a :: y').reverse
          (fun c hc => h2 c (List.mem_reverse.mp hc)),
        dropWhile_head_not_ws (a :: y').reverse hy2,
        List.reverse_reverse]

/-- ASCII case folding fixes whitespace characters. -/
theorem ws_toLower (c : Char) (h : isJsWs c = true) : c.toLower = c := by
  have hcases : ((((c = ' ' ∨ c = '\t') ∨ c = '\n') ∨ c = '\r') ∨ c = '\x0b') ∨ c = '\x0c' := by
    simpa [isJsWs] using h
  rcases hcases with ((((rfl | rfl) | rfl) | rfl) | rfl) | rfl <;> decide

/-- Lowercasing an all-whitespace block keeps it all-whitespace. -/
theorem allWs_map_toLower (w : List Char) (hw : ∀ c ∈ w, isJsWs c = true) :
    ∀ c ∈ w.map Char.toLower, isJsWs c = true := by
  intro c hc
  obtain ⟨a, ha, rfl⟩ := List.mem_map.mp hc
  rw [ws_toLower a (hw a ha)]
  exact hw a ha

/-- `canon` maps a whitespace sandwich around a core to the folded core. -/
theorem canon_sandwich (r : String) (w1 w2 x : List Char)
    (h1 : ∀ c ∈ w1, isJsWs c = true) (h2 : ∀ c ∈ w2, isJsWs c = true)
    (hd : r.data = w1 ++ x ++ w2)
    (hh : ∀ c, (x.map Char.toLower).head? = some c → isJsWs c = false)
    (hl : ∀ c, (x.map Char.toLower).reverse.head? = some c → isJsWs c = false) :
    canon r = String.mk (x.map Char.toLower) := by
  show String.mk (trimChars ((String.mk (r.data.map Char.toLower)).data)) = _
  rw [show (String.mk (r.data.map Char.toLower)).data = r.data.map Char.toLower from rfl,
      hd, List.map_append, List.map_append,
      trimChars_sandwich (w1.map Char.toLower) (w2.map Char.toLower) (x.map Char.toLower)
        (allWs_map_toLower w1 h1) (allWs_map_toLower w2 h2) hh hl]

/-- Normalization is invariant across case and surrounding-whitespace
variation. -/
theorem canon_eq_of_caseWsVariant (r1 r2 : String) (h : CaseWsVariant r1 r2) :
    canon r1 = canon r2 := by
  obtain ⟨w1, w2, w3, w4, x1, x2, hw1, hw2, hw3, hw4, hd1, hd2, hx, hh, hl⟩ := h
  rw [canon_sandwich r1 w1 w2 x1 hw1 hw2 hd1 hh hl,
      canon_sandwich r2 w3 w4 x2 hw3 hw4 hd2 (hx ▸ hh) (hx ▸ hl), hx]

/-! ## Claim C1 -/

/-- C1 counterexample: on the Mailgun route, a webhook whose recipient's
domain does not match (and is not a subdomain of) the accepted root domain is
still persisted and still pushed to its room; only the success status part of
the claim holds. -/
theorem c1_counterexample :
    strIncludes "alice@evil.com" rootDomain = false ∧
    c1Run.status = 200 ∧
    c1Run.state.store ≠ [] ∧
    c1Run.pushes ≠ [] := by decide

/-- C1 amended: the domain policy exists only on the SendGrid route, where it
is a substring test: a recipient not containing the root domain is silently
discarded (no record stored, no push, 200 response). The Mailgun route
persists any message with a non-empty recipient regardless of domain, also
answering 200. -/
theorem c1_domain_policy :
    (∀ st p parse now saveOk,
      strIncludes (sendgridRecipient p parse) rootDomain = false →
      webhookSendgrid st p parse now saveOk = ⟨st, 200, []⟩) ∧
    (∀ st (p : MailgunPayload) (r : String) now, p.recipient = some r → r ≠ "" →
      (webhookMailgun st p now true).state.store = st.store ++ [mailgunDoc st p r now] ∧
      (webhookMailgun st p now true).status = 200) := by
  constructor
  · intro st p parse now saveOk h
    unfold webhookSendgrid
    rw [if_pos (Or.inr h)]
  · intro st p r now hr hne
    constructor <;> simp [webhookMailgun, hr, hne]

/-- Witness for the amended C1 theorem at concrete inputs. -/
theorem c1_domain_policy_witness :
    (strIncludes (sendgridRecipient c1SgPayload noMime) rootDomain = false ∧
      webhookSendgrid emptyState c1SgPayload noMime 0 true = ⟨emptyState, 200, []⟩) ∧
    ((webhookMailgun emptyState c1MailgunPayload 0 true).state.store
        = emptyState.store ++ [mailgunDoc emptyState c1MailgunPayload "alice@evil.com" 0] ∧
      (webhookMailgun emptyState c1MailgunPayload 0 true).status = 200) :=
  ⟨⟨by decide, c1_domain_policy.1 emptyState c1SgPayload noMime 0 true (by decide)⟩,
   c1_domain_policy.2 emptyState c1MailgunPayload "alice@evil.com" 0 rfl (by decide)⟩

/-! ## Claim C5 -/

/-- C5 counterexample: a SendGrid webhook with no usable recipient at all is
answered 200 (not the claimed 400); no record is stored. -/
theorem c5_counterexample :
    (webhookSendgrid emptyState c5SgPayload noMime 0 true).status = 200 ∧
    (webhookSendgrid emptyState c5SgPayload noMime 0 true).status ≠ 400 ∧
    (webhookSendgrid emptyState c5SgPayload noMime 0 true).state.store = [] := by decide

/-- C5 amended: with no usable recipient, neither route stores a record; the
Mailgun route answers 400, but the SendGrid route answers 200. -/
theorem c5_missing_recipient :
    (∀ st (p : MailgunPayload) now saveOk,
      (p.recipient = none ∨ p.recipient = some "") →
      webhookMailgun st p now saveOk = ⟨st, 400, []⟩) ∧
    (∀ st p parse now saveOk, sendgridRecipient p parse = "" →
      webhookSendgrid st p parse now saveOk = ⟨st, 200, []⟩) := by
  constructor
  · intro st p now saveOk h
    rcases h with h | h <;> simp [webhookMailgun, h]
  · intro st p parse now saveOk h
    unfold webhookSendgrid
    rw [if_pos (Or.inl h)]

/-- Witness for the amended C5 theorem at concrete inputs. -/
theorem c5_missing_recipient_witness :
    webhookMailgun emptyState c5MgPayload 0 true = ⟨emptyState, 400, []⟩ ∧
    webhookSendgrid emptyState c5SgPayload noMime 0 true = ⟨emptyState, 200, []⟩ :=
  ⟨c5_missing_recipient.1 emptyState c5MgPayload 0 true (Or.inl rfl),
   c5_missing_recipient.2 emptyState c5SgPayload noMime 0 true (by decide)⟩

/-! ## Claim C8 -/

/-- C8 counterexample: joining with a whitespace-only address is not rejected;
it creates a room keyed by the empty string (and pushes an empty history). -/
theorem c8_counterexample :
    canon "   " = "" ∧
    (joinRoom emptyState "sock1" "   " true).1.activeRooms = [("", ["sock1"])] ∧
    (joinRoom emptyState "sock1" "   " true).2 = [Push.history "sock1" []] := by decide

/-- C8 amended: normalization is a plain lowercase-and-trim with no emptiness
check; a join whose address is empty after normalization is accepted and the
socket becomes a member of the room keyed by the empty string. -/
theorem c8_empty_room (st : ServerState) (sid raw : String) (qOk : Bool)
    (h : canon raw = "") :
    sid ∈ membersOf ((joinRoom st sid raw qOk).1.activeRooms) "" ∧
    sid ∈ membersOf ((joinRoom st sid raw qOk).1.rooms) "" := by
  have h1 := mem_membersOf_regJoin st.activeRooms "" sid
  have h2 := mem_membersOf_regJoin st.rooms "" sid
  cases qOk <;> exact ⟨by simpa [joinRoom, h] using h1, by simpa [joinRoom, h] using h2⟩

/-- Witness for the amended C8 theorem at a concrete input. -/
theorem c8_empty_room_witness :
    canon " " = "" ∧
    ("s2" ∈ membersOf ((joinRoom emptyState "s2" " " false).1.activeRooms) "" ∧
     "s2" ∈ membersOf ((joinRoom emptyState "s2" " " false).1.rooms) "") :=
  ⟨by decide, c8_empty_room emptyState "s2" " " false (by decide)⟩

/-! ## Claim C3 -/

/-- C3 counterexample: two spellings of the same mailbox differing only in a
leading space have the same canonical form, yet history lookup resolves them
to different store partitions, because `findByAddress` only lowercases (it
does not trim) its argument. -/
theorem c3_counterexample :
    canon " a@d.com" = canon "a@d.com" ∧
    findByAddress [c3Doc] "a@d.com" = [c3Doc] ∧
    findByAddress [c3Doc] " a@d.com" = [] := by decide

/-- A non-whitespace head condition transfers from a computed head. -/
theorem head_cond_of_eq (L : List Char) (a : Char) (h : L.head? = some a)
    (ha : isJsWs a = false) : ∀ c, L.head? = some c → isJsWs c = false := by
  intro c hc
  rw [h] at hc
  injection hc with h2
  rw [← h2]
  exact ha

/-- `" A@D.com "` and `"a@d.com"` differ only in case and outer whitespace. -/
theorem caseWsVariant_example : CaseWsVariant " A@D.com " "a@d.com" := by
  refine ⟨[' '], [' '], [], [], "A@D.com".data, "a@d.com".data, ?_, ?_, ?_, ?_, ?_, ?_, ?_,
    head_cond_of_eq _ 'a' (by decide) (by decide),
    head_cond_of_eq _ 'm' (by decide) (by decide)⟩ <;> decide

/-- C3 amended: normalization (lowercase then trim) is invariant across case
and surrounding-whitespace variation, and is applied identically at join/leave
and at ingestion (room routing); but history lookup (`findByAddress`) applies
only lowercasing to its argument, so two spellings with equal canonical form
can resolve to different store partitions. -/
theorem c3_normalization :
    (∀ r1 r2, CaseWsVariant r1 r2 → canon r1 = canon r2) ∧
    (∀ st sid raw qOk,
      (joinRoom st sid raw qOk).1.rooms = regJoin st.rooms (canon raw) sid ∧
      (joinRoom st sid raw qOk).1.activeRooms = regJoin st.activeRooms (canon raw) sid) ∧
    (∀ st (p : MailgunPayload) r now, p.recipient = some r → r ≠ "" →
      (webhookMailgun st p now true).pushes =
        [Push.newEmail (membersOf st.rooms (canon r))
          (toClientFormat (mailgunDoc st p r now))]) ∧
    (∃ store a1 a2, canon a1 = canon a2 ∧ findByAddress store a1 ≠ findByAddress store a2) := by
  refine ⟨canon_eq_of_caseWsVariant, ?_, ?_, ⟨[c3Doc], " a@d.com", "a@d.com", by decide, by decide⟩⟩
  · intro st sid raw qOk
    cases qOk <;> exact ⟨rfl, rfl⟩
  · intro st p r now hr hne
    simp [webhookMailgun, hr, hne]

/-- Witness for the amended C3 theorem at concrete inputs. -/
theorem c3_normalization_witness :
    canon " A@D.com " = canon "a@d.com" ∧
    (webhookMailgun emptyState c3Payload 0 true).pushes =
      [Push.newEmail (membersOf emptyState.rooms (canon "a@d.com"))
        (toClientFormat (mailgunDoc emptyState c3Payload "a@d.com" 0))] :=
  ⟨c3_normalization.1 " A@D.com " "a@d.com" caseWsVariant_example,
   c3_normalization.2.2.1 emptyState c3Payload "a@d.com" 0 rfl (by decide)⟩

/-! ## Claim C2 -/

/-- C2: each route's live push targets exactly the members of the room keyed
by the canonical (lowercased, trimmed) recipient, and joining with any
spelling subscribes the socket to the room keyed by that spelling's canonical
form — so delivery is to exactly the subscribers of the canonical recipient,
regardless of case or whitespace variation in the payload. -/
theorem c2_delivery_targets :
    (∀ st (p : MailgunPayload) r now, p.recipient = some r → r ≠ "" →
      (webhookMailgun st p now true).pushes =
        [Push.newEmail (membersOf st.rooms (canon r))
          (toClientFormat (mailgunDoc st p r now))]) ∧
    (∀ st p parse now, sendgridRecipient p parse ≠ "" →
      strIncludes (sendgridRecipient p parse) rootDomain = true →
      (webhookSendgrid st p parse now true).pushes =
        [Push.newEmail (membersOf st.rooms (canon (sendgridRecipient p parse)))
          (toClientFormat (sendgridDoc st p parse now))]) ∧
    (∀ st sid raw qOk, sid ∈ membersOf ((joinRoom st sid raw qOk).1.rooms) (canon raw)) := by
  refine ⟨?_, ?_, ?_⟩
  · intro st p r now hr hne
    simp [webhookSendgrid, webhookMailgun, hr, hne]
  · intro st p parse now hne hinc
    unfold webhookSendgrid
    rw [if_neg (by simp [hne, hinc]), if_pos rfl]
  · intro st sid raw qOk
    have h := mem_membersOf_regJoin st.rooms (canon raw) sid
    cases qOk <;> simpa [joinRoom] using h

/-- Witness for the C2 theorem at concrete inputs. -/
theorem c2_delivery_targets_witness :
    (webhookMailgun emptyState c2Payload 0 true).pushes =
      [Push.newEmail (membersOf emptyState.rooms (canon "USER@Fadhlirajwaa.my.id"))
        (toClientFormat (mailgunDoc emptyState c2Payload "USER@Fadhlirajwaa.my.id" 0))] ∧
    "sock9" ∈ membersOf ((joinRoom emptyState "sock9" " User@D.com" true).1.rooms)
      (canon " User@D.com") :=
  ⟨c2_delivery_targets.1 emptyState c2Payload "USER@Fadhlirajwaa.my.id" 0 rfl (by decide),
   c2_delivery_targets.2.2 emptyState "sock9" " User@D.com" true⟩

/-! ## Claim C4 -/

/-- C4: after a join, leave, or disconnect, every address present in the
active-rooms registry has at least one member (empty rooms are pruned
immediately), so the registry's size equals the number of addresses with at
least one live subscriber. -/
theorem c4_registry_pruned (st : ServerState) (sid addr : String) (qOk : Bool)
    (h : RegWF st.activeRooms) :
    RegWF ((joinRoom st sid addr qOk).1.activeRooms) ∧
    RegWF ((leaveRoom st sid addr).activeRooms) ∧
    RegWF ((disconnectSock st sid).activeRooms) ∧
    st.activeRooms.length = (st.activeRooms.filter (fun p => !p.2.isEmpty)).length := by
  refine ⟨?_, ?_, ?_, ?_⟩
  · have hj := regWF_regJoin st.activeRooms (canon addr) sid h
    cases qOk <;> simpa [joinRoom] using hj
  · exact regWF_regLeave st.activeRooms (canon addr) sid h
  · exact regWF_regDisconnect st.activeRooms sid
  · rw [List.filter_eq_self.mpr ?_]
    intro p hp
    rw [Bool.not_eq_true', ← Bool.not_eq_true, List.isEmpty_iff]
    exact h p hp

/-- Witness for the C4 theorem at a concrete input. -/
theorem c4_registry_pruned_witness :
    RegWF c4State.activeRooms ∧
    (RegWF ((joinRoom c4State "s2" "a@b.c" true).1.activeRooms) ∧
     RegWF ((leaveRoom c4State "s2" "a@b.c").activeRooms) ∧
     RegWF ((disconnectSock c4State "s2").activeRooms) ∧
     c4State.activeRooms.length
       = (c4State.activeRooms.filter (fun p => !p.2.isEmpty)).length) :=
  ⟨by unfold RegWF; decide,
   c4_registry_pruned c4State "s2" "a@b.c" true (by unfold RegWF; decide)⟩

/-! ## Claim C7 -/

/-- C7: `findByAddress` returns only messages whose stored recipient equals
the canonical form of the queried address (given the store invariant that
recipients are stored trimmed, which the schema setters guarantee), ordered
most-recent-first by `createdAt`, and at most 50 of them. -/
theorem c7_findByAddress_spec (store : List EmailDoc) (addr : String)
    (hstore : ∀ m ∈ store, jsTrim m.to_address = m.to_address) :
    (∀ m ∈ findByAddress store addr, m.to_address = canon addr) ∧
    List.Sorted newerEq (findByAddress store addr) ∧
    (findByAddress store addr).length ≤ 50 := by
  refine ⟨?_, ?_, ?_⟩
  · intro m hm
    have hm1 : m ∈ (store.filter (fun m => m.to_address == jsLower addr)).insertionSort newerEq :=
      (List.take_sublist 50 _).subset hm
    have hm2 := (List.mem_insertionSort newerEq).mp hm1
    obtain ⟨hmem, hbeq⟩ := List.mem_filter.mp hm2
    have heq : m.to_address = jsLower addr := by simpa using hbeq
    show m.to_address = jsTrim (jsLower addr)
    rw [← heq, hstore m hmem]
  · exact (List.sorted_insertionSort newerEq _).sublist (List.take_sublist 50 _)
  · exact List.length_take_le 50 _

/-- Witness for the C7 theorem at a concrete input. -/
theorem c7_findByAddress_spec_witness :
    (∀ m ∈ [c7Doc], jsTrim m.to_address = m.to_address) ∧
    ((∀ m ∈ findByAddress [c7Doc] "x@y.z", m.to_address = canon "x@y.z") ∧
     List.Sorted newerEq (findByAddress [c7Doc] "x@y.z") ∧
     (findByAddress [c7Doc] "x@y.z").length ≤ 50) :=
  ⟨by decide, c7_findByAddress_spec [c7Doc] "x@y.z" (by decide)⟩

/-! ## Claim C9 -/

/-- C9: during join, membership is recorded before the history query; if the
query fails, an error notification goes to that socket only, the socket
remains a member of the room, and it receives subsequent live pushes for that
address. -/
theorem c9_join_failure (st : ServerState) (sid raw : String) :
    (joinRoom st sid raw false).2 = [Push.errorPush sid "Failed to join room"] ∧
    (joinRoom st sid raw false).1.rooms = regJoin st.rooms (canon raw) sid ∧
    (joinRoom st sid raw false).1.activeRooms = regJoin st.activeRooms (canon raw) sid ∧
    (∀ (p : MailgunPayload) r now, p.recipient = some r → r ≠ "" → canon r = canon raw →
      (webhookMailgun (joinRoom st sid raw false).1 p now true).pushes =
        [Push.newEmail (membersOf ((joinRoom st sid raw false).1.rooms) (canon r))
          (toClientFormat (mailgunDoc (joinRoom st sid raw false).1 p r now))] ∧
      sid ∈ membersOf ((joinRoom st sid raw false).1.rooms) (canon r)) := by
  refine ⟨rfl, rfl, rfl, ?_⟩
  intro p r now hr hne hcr
  constructor
  · simp [webhookMailgun, hr, hne]
  · rw [hcr]
    simpa [joinRoom] using mem_membersOf_regJoin st.rooms (canon raw) sid

/-- Witness for the C9 theorem at concrete inputs. -/
theorem c9_join_failure_witness :
    (joinRoom emptyState "s3" "A@d.com" false).2 =
      [Push.errorPush "s3" "Failed to join room"] ∧
    ((webhookMailgun (joinRoom emptyState "s3" "A@d.com" false).1 c9Payload 0 true).pushes =
      [Push.newEmail
        (membersOf ((joinRoom emptyState "s3" "A@d.com" false).1.rooms) (canon "a@d.com"))
        (toClientFormat
          (mailgunDoc (joinRoom emptyState "s3" "A@d.com" false).1 c9Payload "a@d.com" 0))] ∧
     "s3" ∈ membersOf ((joinRoom emptyState "s3" "A@d.com" false).1.rooms) (canon "a@d.com")) :=
  ⟨(c9_join_failure emptyState "s3" "A@d.com").1,
   (c9_join_failure emptyState "s3" "A@d.com").2.2.2 c9Payload "a@d.com" 0 rfl (by decide)
     (by decide)⟩

/-! ## Claim C10 -/

/-- C10: in the Mailgun handler the push happens only after a successful save:
a failed save yields a 500 response, an unchanged state, and no push; and on a
successful save the pushed message is exactly the stored one. -/
theorem c10_push_after_save (st : ServerState) (p : MailgunPayload) (r : String) (now : Nat)
    (hr : p.recipient = some r) (hne : r ≠ "") :
    (webhookMailgun st p now false).status = 500 ∧
    (webhookMailgun st p now false).pushes = [] ∧
    (webhookMailgun st p now false).state = st ∧
    (webhookMailgun st p now true).pushes =
      [Push.newEmail (membersOf st.rooms (canon r)) (toClientFormat (mailgunDoc st p r now))] ∧
    mailgunDoc st p r now ∈ (webhookMailgun st p now true).state.store := by
  refine ⟨?_, ?_, ?_, ?_, ?_⟩ <;> simp [webhookMailgun, hr, hne]

/-- Witness for the C10 theorem at concrete inputs. -/
theorem c10_push_after_save_witness :
    (webhookMailgun emptyState c10Payload 0 false).status = 500 ∧
    (webhookMailgun emptyState c10Payload 0 false).pushes = [] ∧
    (webhookMailgun emptyState c10Payload 0 false).state = emptyState ∧
    (webhookMailgun emptyState c10Payload 0 true).pushes =
      [Push.newEmail (membersOf emptyState.rooms (canon "user@site.tld"))
        (toClientFormat (mailgunDoc emptyState c10Payload "user@site.tld" 0))] ∧
    mailgunDoc emptyState c10Payload "user@site.tld" 0 ∈
      (webhookMailgun emptyState c10Payload 0 true).state.store :=
  c10_push_after_save emptyState c10Payload "user@site.tld" 0 rfl (by decide)

/-! ## Claim C6 -/

/-- C6: a client joining an address with exactly two stored messages, M1 older
and M2 newer, receives the history `[M2, M1]` (most-recent-first) pushed once
to itself alone; a message M3 ingested afterwards arrives as a live push to
the room the client now belongs to, and (having a fresh store id) is never
part of the history list. -/
theorem c6_history_then_live (st : ServerState) (m1 m2 : EmailDoc) (sid : String)
    (p3 : MailgunPayload) (now : Nat)
    (hstore : st.store = [m1, m2])
    (h1 : m1.to_address = "a@d.com") (h2 : m2.to_address = "a@d.com")
    (h12 : m1.createdAt < m2.createdAt)
    (hid1 : m1.id ≠ st.nextId) (hid2 : m2.id ≠ st.nextId)
    (hp3 : p3.recipient = some "a@d.com") :
    (joinRoom st sid "a@d.com" true).2 =
      [Push.history sid [toClientFormat m2, toClientFormat m1]] ∧
    (webhookMailgun (joinRoom st sid "a@d.com" true).1 p3 now true).pushes =
      [Push.newEmail (membersOf (joinRoom st sid "a@d.com" true).1.rooms "a@d.com")
        (toClientFormat (mailgunDoc (joinRoom st sid "a@d.com" true).1 p3 "a@d.com" now))] ∧
    sid ∈ membersOf (joinRoom st sid "a@d.com" true).1.rooms "a@d.com" ∧
    toClientFormat (mailgunDoc (joinRoom st sid "a@d.com" true).1 p3 "a@d.com" now) ∉
      [toClientFormat m2, toClientFormat m1] := by
  have hca : canon "a@d.com" = "a@d.com" := by decide
  have hne : "a@d.com" ≠ "" := by decide
  have hnot : ¬ newerEq m1 m2 := Nat.not_le.mpr h12
  have hfind : findByAddress st.store (canon "a@d.com") = [m2, m1] := by
    rw [hca]
    unfold findByAddress
    rw [hstore]
    have hb1 : (m1.to_address == jsLower "a@d.com") = true := by rw [h1]; decide
    have hb2 : (m2.to_address == jsLower "a@d.com") = true := by rw [h2]; decide
    simp [hb1, hb2, hnot]
  refine ⟨?_, ?_, ?_, ?_⟩
  · have hj : (joinRoom st sid "a@d.com" true).2 =
        [Push.history sid ((findByAddress st.store (canon "a@d.com")).map toClientFormat)] := rfl
    rw [hj, hfind]
    rfl
  · simp [webhookMailgun, hp3, hne, hca]
  · simpa [joinRoom, hca] using mem_membersOf_regJoin st.rooms "a@d.com" sid
  · intro hmem
    rcases List.mem_cons.mp hmem with he | hmem1
    · have hm : st.nextId = m2.id := congrArg ClientEmail.id he
      exact hid2 hm.symm
    · have he1 := List.mem_singleton.mp hmem1
      have hm : st.nextId = m1.id := congrArg ClientEmail.id he1
      exact hid1 hm.symm

/-- Witness for the C6 theorem at concrete inputs. -/
theorem c6_history_then_live_witness :
    (joinRoom c6State "sockA" "a@d.com" true).2 =
      [Push.history "sockA" [toClientFormat c6Doc2, toClientFormat c6Doc1]] ∧
    (webhookMailgun (joinRoom c6State "sockA" "a@d.com" true).1 c6Payload 30 true).pushes =
      [Push.newEmail (membersOf (joinRoom c6State "sockA" "a@d.com" true).1.rooms "a@d.com")
        (toClientFormat
          (mailgunDoc (joinRoom c6State "sockA" "a@d.com" true).1 c6Payload "a@d.com" 30))] ∧
    "sockA" ∈ membersOf (joinRoom c6State "sockA" "a@d.com" true).1.rooms "a@d.com" ∧
    toClientFormat (mailgunDoc (joinRoom c6State "sockA" "a@d.com" true).1 c6Payload "a@d.com" 30) ∉
      [toClientFormat c6Doc2, toClientFormat c6Doc1] :=
  c6_history_then_live c6State c6Doc1 c6Doc2 "sockA" c6Payload 30 rfl rfl rfl
    (by decide) (by decide) (by decide) rfl
